import Mathlib

/-!
Shallow embedding of `src/main.go` (gin-golang-api): an in-memory CRUD
server with a user repository and a post repository, each a Go slice plus
a `uint` counter.

Modelling conventions:
* Go `uint` values are modelled as `Nat` (the counters only ever
  increment, the code never relies on wraparound).
* Go `time.Time` is modelled as `Nat`; the Go zero value `time.Time{}`
  is `0`.  Handlers that call `time.Now()` take an explicit `now : Nat`
  argument.  Note `createUser`/`createPost` never call `time.Now()` in
  the source, so they take no clock argument and the struct literal
  leaves both timestamps at the zero value, exactly as the Go struct
  literal `User{ID: ..., Username: ..., Email: ...}` does.
* The JSON layer (`ShouldBindJSON`) is outside the repository core; the
  handlers here receive an already-decoded request value.  The `:id`
  path parameter is kept as a `String` and parsed with the embedding of
  `strconv.ParseUint(s, 10, 32)`.
-/

structure User where
  id : Nat
  username : String
  email : String
  createdAt : Nat
  updatedAt : Nat
deriving Repr, DecidableEq

structure Post where
  id : Nat
  title : String
  content : String
  authorId : Nat
  createdAt : Nat
  updatedAt : Nat
deriving Repr, DecidableEq

structure CreateUserRequest where
  username : String
  email : String
deriving Repr, DecidableEq

structure CreatePostRequest where
  title : String
  content : String
deriving Repr, DecidableEq

/-- The global mutable state of `main.go`: the slices `users`, `posts`
and the counters `userCounter`, `postCounter`. -/
structure AppState where
  users : List User
  posts : List Post
  userCounter : Nat
  postCounter : Nat
deriving Repr, DecidableEq

/-- `var users []User; var posts []Post; var userCounter uint = 1;
var postCounter uint = 1`. -/
def initialState : AppState :=
  { users := [], posts := [], userCounter := 1, postCounter := 1 }

/-- Numeric value of a decimal digit string (the accumulation performed
by `strconv.ParseUint` in base 10), over the string's character list. -/
def digitsVal (s : String) : Nat :=
  s.data.foldl (fun acc c => acc * 10 + (c.toNat - 48)) 0

/-- Embedding of `strconv.ParseUint(s, 10, 32)`: succeeds exactly on a
non-empty string of ASCII decimal digits whose value fits in 32 bits;
everything else (empty string, sign, non-digit, overflow) is an error,
which the handlers turn into a 400 response. -/
def parseUint32 (s : String) : Option Nat :=
  if s.data.isEmpty then none
  else if s.data.all Char.isDigit then
    if digitsVal s < 2 ^ 32 then some (digitsVal s) else none
  else none

inductive CreateUserResult where
  | created (u : User)
  | conflict
deriving Repr, DecidableEq

/-- `createUser` (src/main.go lines 125-150), after JSON decoding: scan
`users` for a username or email clash (409 on clash), otherwise build
`User{ID: userCounter, Username: req.Username, Email: req.Email}`
(timestamps left at the zero value), append it and increment the
counter. -/
def createUser (req : CreateUserRequest) (s : AppState) :
    CreateUserResult × AppState :=
  if s.users.any (fun u => u.username == req.username || u.email == req.email)
  then (.conflict, s)
  else
    let user : User :=
      { id := s.userCounter, username := req.username, email := req.email,
        createdAt := 0, updatedAt := 0 }
    (.created user,
     { s with users := s.users ++ [user], userCounter := s.userCounter + 1 })

inductive GetResult (α : Type) where
  | ok (v : α)
  | invalidId
  | notFound
deriving Repr, DecidableEq

/-- The lookup loop of `getUser` (lines 159-166): first user whose `ID`
matches. -/
def getUserCore (id : Nat) (s : AppState) : GetResult User :=
  match s.users.find? (fun u => u.id == id) with
  | some u => .ok u
  | none => .notFound

/-- `getUser` (lines 152-167): parse the `:id` parameter (400 on
failure), then linear lookup (404 when absent). -/
def getUser (idParam : String) (s : AppState) : GetResult User :=
  match parseUint32 idParam with
  | none => .invalidId
  | some id => getUserCore id s

inductive UpdateUserResult where
  | ok (u : User)
  | invalidId
  | conflict
  | notFound
deriving Repr, DecidableEq

/-- The inner boolean clash test of `updateUser` (line 186):
`otherUser.ID != user.ID && (otherUser.Username == req.Username ||
otherUser.Email == req.Email)`. -/
def userClash (req : CreateUserRequest) (targetId : Nat) (o : User) : Bool :=
  o.id != targetId && (o.username == req.username || o.email == req.email)

/-- The in-place overwrite of `updateUser` (lines 192-194):
`users[i].Username = req.Username; users[i].Email = req.Email;
users[i].UpdatedAt = time.Now()` applied to one user value. -/
def applyUserReq (req : CreateUserRequest) (now : Nat) (u : User) : User :=
  { u with username := req.username, email := req.email, updatedAt := now }

/-- The `for i, user := range users` loop of `updateUser` (lines
182-199): at the first index whose `ID` matches, check every other user
(`otherUser.ID != user.ID`) for a username/email clash; on clash return
409 leaving the slice untouched, otherwise overwrite `Username`,
`Email` and `UpdatedAt` in place.  `allUsers` is the whole slice the
inner loop ranges over. -/
def updateUserLoop (id : Nat) (req : CreateUserRequest) (now : Nat)
    (allUsers : List User) : List User → UpdateUserResult × List User
  | [] => (.notFound, [])
  | u :: rest =>
    if u.id == id then
      if allUsers.any (userClash req u.id)
      then (.conflict, u :: rest)
      else (.ok (applyUserReq req now u), applyUserReq req now u :: rest)
    else
      let r := updateUserLoop id req now allUsers rest
      (r.1, u :: r.2)

/-- Repository-level user update with an already-parsed id. -/
def updateUserCore (id : Nat) (req : CreateUserRequest) (now : Nat)
    (s : AppState) : UpdateUserResult × AppState :=
  let r := updateUserLoop id req now s.users s.users
  (r.1, { s with users := r.2 })

/-- `updateUser` (lines 169-202): parse the `:id` parameter first (400
on failure), then run the update loop. -/
def updateUser (idParam : String) (req : CreateUserRequest) (now : Nat)
    (s : AppState) : UpdateUserResult × AppState :=
  match parseUint32 idParam with
  | none => (.invalidId, s)
  | some id => updateUserCore id req now s

inductive DeleteResult where
  | deleted
  | invalidId
  | notFound
deriving Repr, DecidableEq

/-- The deletion loop of `deleteUser` (lines 211-217):
`users = append(users[:i], users[i+1:]...)` at the first matching
index. -/
def deleteUserLoop (id : Nat) : List User → DeleteResult × List User
  | [] => (.notFound, [])
  | u :: rest =>
    if u.id == id then (.deleted, rest)
    else
      let r := deleteUserLoop id rest
      (r.1, u :: r.2)

/-- Repository-level user delete with an already-parsed id. -/
def deleteUserCore (id : Nat) (s : AppState) : DeleteResult × AppState :=
  let r := deleteUserLoop id s.users
  (r.1, { s with users := r.2 })

/-- `deleteUser` (lines 204-220). -/
def deleteUser (idParam : String) (s : AppState) : DeleteResult × AppState :=
  match parseUint32 idParam with
  | none => (.invalidId, s)
  | some id => deleteUserCore id s

/-- `getUsers` (lines 118-123): returns the whole slice and its
length; side-effect free. -/
def getUsers (s : AppState) : List User × Nat :=
  (s.users, s.users.length)

/-- `createPost` (lines 229-253): the author is the first user's id, or
the literal 1 when `users` is empty; the request carries no author
field.  Builds `Post{ID: postCounter, Title: ..., Content: ...,
AuthorID: authorID}` (timestamps at the zero value), appends and
increments the counter.  There is no conflict check, so the result is
always a created post. -/
def createPost (req : CreatePostRequest) (s : AppState) : Post × AppState :=
  let authorID : Nat :=
    match s.users with
    | [] => 1
    | u :: _ => u.id
  let post : Post :=
    { id := s.postCounter, title := req.title, content := req.content,
      authorId := authorID, createdAt := 0, updatedAt := 0 }
  (post,
   { s with posts := s.posts ++ [post], postCounter := s.postCounter + 1 })

/-- The lookup loop of `getPost` (lines 262-267). -/
def getPostCore (id : Nat) (s : AppState) : GetResult Post :=
  match s.posts.find? (fun p => p.id == id) with
  | some p => .ok p
  | none => .notFound

/-- `getPost` (lines 255-270). -/
def getPost (idParam : String) (s : AppState) : GetResult Post :=
  match parseUint32 idParam with
  | none => .invalidId
  | some id => getPostCore id s

inductive UpdatePostResult where
  | ok (p : Post)
  | invalidId
  | notFound
deriving Repr, DecidableEq

/-- The `for i, post := range posts` loop of `updatePost` (lines
285-294): at the first matching index overwrite `Title`, `Content`,
`UpdatedAt`. -/
def updatePostLoop (id : Nat) (req : CreatePostRequest) (now : Nat) :
    List Post → UpdatePostResult × List Post
  | [] => (.notFound, [])
  | p :: rest =>
    if p.id == id then
      let p' : Post :=
        { p with title := req.title, content := req.content,
                 updatedAt := now }
      (.ok p', p' :: rest)
    else
      let r := updatePostLoop id req now rest
      (r.1, p :: r.2)

/-- Repository-level post update with an already-parsed id. -/
def updatePostCore (id : Nat) (req : CreatePostRequest) (now : Nat)
    (s : AppState) : UpdatePostResult × AppState :=
  let r := updatePostLoop id req now s.posts
  (r.1, { s with posts := r.2 })

/-- `updatePost` (lines 272-297). -/
def updatePost (idParam : String) (req : CreatePostRequest) (now : Nat)
    (s : AppState) : UpdatePostResult × AppState :=
  match parseUint32 idParam with
  | none => (.invalidId, s)
  | some id => updatePostCore id req now s

/-- The deletion loop of `deletePost` (lines 306-312). -/
def deletePostLoop (id : Nat) : List Post → DeleteResult × List Post
  | [] => (.notFound, [])
  | p :: rest =>
    if p.id == id then (.deleted, rest)
    else
      let r := deletePostLoop id rest
      (r.1, p :: r.2)

/-- Repository-level post delete with an already-parsed id. -/
def deletePostCore (id : Nat) (s : AppState) : DeleteResult × AppState :=
  let r := deletePostLoop id s.posts
  (r.1, { s with posts := r.2 })

/-- `deletePost` (lines 299-315). -/
def deletePost (idParam : String) (s : AppState) : DeleteResult × AppState :=
  match parseUint32 idParam with
  | none => (.invalidId, s)
  | some id => deletePostCore id s

/-- `getPosts` (lines 222-227). -/
def getPosts (s : AppState) : List Post × Nat :=
  (s.posts, s.posts.length)

/-- One request against the server, abstracting the route that was
hit.  Mutating handlers that read the clock carry the `now` observed by
their `time.Now()` call. -/
inductive Op where
  | createUser (req : CreateUserRequest)
  | getUser (idParam : String)
  | updateUser (idParam : String) (req : CreateUserRequest) (now : Nat)
  | deleteUser (idParam : String)
  | listUsers
  | createPost (req : CreatePostRequest)
  | getPost (idParam : String)
  | updatePost (idParam : String) (req : CreatePostRequest) (now : Nat)
  | deletePost (idParam : String)
  | listPosts
deriving Repr, DecidableEq

/-- The state after serving one request. -/
def step (op : Op) (s : AppState) : AppState :=
  match op with
  | .createUser req => (createUser req s).2
  | .getUser _ => s
  | .updateUser idParam req now => (updateUser idParam req now s).2
  | .deleteUser idParam => (deleteUser idParam s).2
  | .listUsers => s
  | .createPost req => (createPost req s).2
  | .getPost _ => s
  | .updatePost idParam req now => (updatePost idParam req now s).2
  | .deletePost idParam => (deletePost idParam s).2
  | .listPosts => s

/-- The state after serving a sequence of requests in order. -/
def run (ops : List Op) (s : AppState) : AppState :=
  ops.foldl (fun s op => step op s) s

/-! ### Helper lemmas about the loops -/

lemma find?_decomp {α : Type} {p : α → Bool} :
    ∀ {l : List α} {a : α}, l.find? p = some a →
    ∃ pre suf, l = pre ++ a :: suf ∧ (∀ v ∈ pre, p v = false) ∧ p a = true := by
  intro l
  induction l with
  | nil => intro a h; simp [List.find?] at h
  | cons x xs ih =>
    intro a h
    by_cases hx : p x = true
    · rw [List.find?_cons_of_pos _ hx] at h
      exact ⟨[], xs, by simp [← Option.some_inj.mp h], by simp, Option.some_inj.mp h ▸ hx⟩
    · rw [List.find?_cons_of_neg _ hx] at h
      obtain ⟨pre, suf, hsplit, hpre, hp⟩ := ih h
      exact ⟨x :: pre, suf, by simp [hsplit], by
        intro v hv
        rcases List.mem_cons.mp hv with rfl | hv
        · exact Bool.not_eq_true _ ▸ hx
        · exact hpre v hv, hp⟩

lemma updateUserLoop_noMatch (id : Nat) (req : CreateUserRequest) (now : Nat)
    (all : List User) :
    ∀ l : List User, (∀ u ∈ l, u.id ≠ id) →
      updateUserLoop id req now all l = (.notFound, l) := by
  intro l
  induction l with
  | nil => intro _; rfl
  | cons u rest ih =>
    intro h
    have hu : (u.id == id) = false := by
      simp [h u (List.mem_cons_self u rest)]
    simp [updateUserLoop, hu, ih fun v hv => h v (List.mem_cons_of_mem u hv)]

lemma updateUserLoop_notFound_iff (id : Nat) (req : CreateUserRequest)
    (now : Nat) (all : List User) :
    ∀ l : List User,
      (updateUserLoop id req now all l).1 = .notFound ↔ ∀ u ∈ l, u.id ≠ id := by
  intro l
  induction l with
  | nil => simp [updateUserLoop]
  | cons u rest ih =>
    by_cases hu : u.id = id
    · have hb : (u.id == id) = true := by simp [hu]
      constructor
      · intro h
        exfalso
        cases hc : all.any (userClash req u.id) with
        | false =>
          simp only [updateUserLoop, hb, if_true, hc, Bool.false_eq_true,
            if_false] at h
          exact UpdateUserResult.noConfusion h
        | true =>
          simp only [updateUserLoop, hb, if_true, hc, if_true] at h
          exact UpdateUserResult.noConfusion h
      · intro h
        exact absurd hu (h u (List.mem_cons_self u rest))
    · have hb : (u.id == id) = false := by simp [hu]
      have hcons : (updateUserLoop id req now all (u :: rest)).1 =
          (updateUserLoop id req now all rest).1 := by
        simp [updateUserLoop, hb]
      rw [hcons, ih]
      constructor
      · intro h v hv
        rcases List.mem_cons.mp hv with rfl | hv
        · exact hu
        · exact h v hv
      · intro h v hv
        exact h v (List.mem_cons_of_mem u hv)

lemma updateUserLoop_match (id : Nat) (req : CreateUserRequest) (now : Nat)
    (all : List User) (u : User) (hid : u.id = id) :
    ∀ (pre : List User), (∀ v ∈ pre, v.id ≠ id) → ∀ (suf : List User),
      updateUserLoop id req now all (pre ++ u :: suf) =
        if all.any (userClash req u.id)
        then (.conflict, pre ++ u :: suf)
        else (.ok (applyUserReq req now u),
              pre ++ applyUserReq req now u :: suf) := by
  intro pre
  induction pre with
  | nil =>
    intro _ suf
    have hb : (u.id == id) = true := by simp [hid]
    cases hc : all.any (userClash req u.id) with
    | true => simp [updateUserLoop, hb, hc]
    | false => simp [updateUserLoop, hb, hc]
  | cons v pre ih =>
    intro hpre suf
    have hv : (v.id == id) = false := by
      simp [hpre v (List.mem_cons_self v pre)]
    have ih' := ih (fun w hw => hpre w (List.mem_cons_of_mem v hw)) suf
    cases hc : all.any (userClash req u.id) with
    | true =>
      rw [if_pos hc] at ih'
      simp [updateUserLoop, hv, ih']
    | false =>
      rw [if_neg (by simp [hc])] at ih'
      simp [updateUserLoop, hv, ih']

/-- The in-place overwrite of `updatePost` (lines 287-289) applied to
one post value. -/
def applyPostReq (req : CreatePostRequest) (now : Nat) (p : Post) : Post :=
  { p with title := req.title, content := req.content, updatedAt := now }

lemma updatePostLoop_noMatch (id : Nat) (req : CreatePostRequest) (now : Nat) :
    ∀ l : List Post, (∀ p ∈ l, p.id ≠ id) →
      updatePostLoop id req now l = (.notFound, l) := by
  intro l
  induction l with
  | nil => intro _; rfl
  | cons p rest ih =>
    intro h
    have hp : (p.id == id) = false := by
      simp [h p (List.mem_cons_self p rest)]
    simp [updatePostLoop, hp, ih fun q hq => h q (List.mem_cons_of_mem p hq)]

lemma updatePostLoop_notFound_iff (id : Nat) (req : CreatePostRequest)
    (now : Nat) :
    ∀ l : List Post,
      (updatePostLoop id req now l).1 = .notFound ↔ ∀ p ∈ l, p.id ≠ id := by
  intro l
  induction l with
  | nil => simp [updatePostLoop]
  | cons p rest ih =>
    by_cases hp : p.id = id
    · have hb : (p.id == id) = true := by simp [hp]
      constructor
      · intro h
        simp [updatePostLoop, hb] at h
      · intro h
        exact absurd hp (h p (List.mem_cons_self p rest))
    · have hb : (p.id == id) = false := by simp [hp]
      have hcons : (updatePostLoop id req now (p :: rest)).1 =
          (updatePostLoop id req now rest).1 := by
        simp [updatePostLoop, hb]
      rw [hcons, ih]
      constructor
      · intro h q hq
        rcases List.mem_cons.mp hq with rfl | hq
        · exact hp
        · exact h q hq
      · intro h q hq
        exact h q (List.mem_cons_of_mem p hq)

lemma updatePostLoop_match (id : Nat) (req : CreatePostRequest) (now : Nat)
    (p : Post) (hid : p.id = id) :
    ∀ (pre : List Post), (∀ q ∈ pre, q.id ≠ id) → ∀ (suf : List Post),
      updatePostLoop id req now (pre ++ p :: suf) =
        (.ok (applyPostReq req now p), pre ++ applyPostReq req now p :: suf) := by
  intro pre
  induction pre with
  | nil =>
    intro _ suf
    have hb : (p.id == id) = true := by simp [hid]
    simp [updatePostLoop, hb, applyPostReq]
  | cons q pre ih =>
    intro hpre suf
    have hq : (q.id == id) = false := by
      simp [hpre q (List.mem_cons_self q pre)]
    have ih' := ih (fun w hw => hpre w (List.mem_cons_of_mem q hw)) suf
    simp [updatePostLoop, hq, ih']

lemma deleteUserLoop_notFound_iff (id : Nat) :
    ∀ l : List User,
      (deleteUserLoop id l).1 = .notFound ↔ ∀ u ∈ l, u.id ≠ id := by
  intro l
  induction l with
  | nil => simp [deleteUserLoop]
  | cons u rest ih =>
    by_cases hu : u.id = id
    · have hb : (u.id == id) = true := by simp [hu]
      constructor
      · intro h
        simp [deleteUserLoop, hb] at h
      · intro h
        exact absurd hu (h u (List.mem_cons_self u rest))
    · have hb : (u.id == id) = false := by simp [hu]
      have hcons : (deleteUserLoop id (u :: rest)).1 =
          (deleteUserLoop id rest).1 := by
        simp [deleteUserLoop, hb]
      rw [hcons, ih]
      constructor
      · intro h v hv
        rcases List.mem_cons.mp hv with rfl | hv
        · exact hu
        · exact h v hv
      · intro h v hv
        exact h v (List.mem_cons_of_mem u hv)

lemma deletePostLoop_notFound_iff (id : Nat) :
    ∀ l : List Post,
      (deletePostLoop id l).1 = .notFound ↔ ∀ p ∈ l, p.id ≠ id := by
  intro l
  induction l with
  | nil => simp [deletePostLoop]
  | cons p rest ih =>
    by_cases hp : p.id = id
    · have hb : (p.id == id) = true := by simp [hp]
      constructor
      · intro h
        simp [deletePostLoop, hb] at h
      · intro h
        exact absurd hp (h p (List.mem_cons_self p rest))
    · have hb : (p.id == id) = false := by simp [hp]
      have hcons : (deletePostLoop id (p :: rest)).1 =
          (deletePostLoop id rest).1 := by
        simp [deletePostLoop, hb]
      rw [hcons, ih]
      constructor
      · intro h q hq
        rcases List.mem_cons.mp hq with rfl | hq
        · exact hp
        · exact h q hq
      · intro h q hq
        exact h q (List.mem_cons_of_mem p hq)

lemma createUser_created {req : CreateUserRequest} {s s' : AppState} {u : User}
    (h : createUser req s = (.created u, s')) :
    u.id = s.userCounter ∧ s'.userCounter = s.userCounter + 1 ∧
      u.username = req.username ∧ u.email = req.email ∧
      u.createdAt = 0 ∧ u.updatedAt = 0 ∧
      s'.users = s.users ++ [u] ∧ s'.posts = s.posts ∧
      s'.postCounter = s.postCounter := by
  cases hc : s.users.any
      (fun v => v.username == req.username || v.email == req.email) with
  | true =>
    simp [createUser, hc] at h
  | false =>
    simp only [createUser, hc, Bool.false_eq_true, if_false] at h
    injection h with h1 h2
    injection h1 with h1
    subst h1
    subst h2
    simp

lemma step_counters_mono (op : Op) (s : AppState) :
    s.userCounter ≤ (step op s).userCounter ∧
      s.postCounter ≤ (step op s).postCounter := by
  cases op with
  | createUser req =>
    cases hc : s.users.any
        (fun v => v.username == req.username || v.email == req.email) with
    | true => simp [step, createUser, hc]
    | false => simp [step, createUser, hc, Nat.le_succ]
  | getUser idParam => exact ⟨le_refl _, le_refl _⟩
  | updateUser idParam req now =>
    cases h : parseUint32 idParam with
    | none => simp [step, updateUser, h]
    | some id => simp [step, updateUser, h, updateUserCore]
  | deleteUser idParam =>
    cases h : parseUint32 idParam with
    | none => simp [step, deleteUser, h]
    | some id => simp [step, deleteUser, h, deleteUserCore]
  | listUsers => exact ⟨le_refl _, le_refl _⟩
  | createPost req =>
    simp [step, createPost, Nat.le_succ]
  | getPost idParam => exact ⟨le_refl _, le_refl _⟩
  | updatePost idParam req now =>
    cases h : parseUint32 idParam with
    | none => simp [step, updatePost, h]
    | some id => simp [step, updatePost, h, updatePostCore]
  | deletePost idParam =>
    cases h : parseUint32 idParam with
    | none => simp [step, deletePost, h]
    | some id => simp [step, deletePost, h, deletePostCore]
  | listPosts => exact ⟨le_refl _, le_refl _⟩

lemma run_counters_mono (ops : List Op) :
    ∀ s : AppState,
      s.userCounter ≤ (run ops s).userCounter ∧
        s.postCounter ≤ (run ops s).postCounter := by
  induction ops with
  | nil => intro s; exact ⟨le_refl _, le_refl _⟩
  | cons op ops ih =>
    intro s
    have h1 := step_counters_mono op s
    have h2 := ih (step op s)
    exact ⟨le_trans h1.1 h2.1, le_trans h1.2 h2.2⟩

/-! ### Claim theorems -/

/-- C1: Across any interleaving of repository operations, a successful
user or post Create returns the current counter value and bumps the
counter by exactly 1; counters never decrease across any operation, so
the identities returned by successive successful Creates are strictly
increasing and an identity returned once (even if its entity was later
deleted) is never returned again. -/
theorem C1_create_identities_strictly_increasing :
    (∀ (req : CreateUserRequest) (s s' : AppState) (u : User),
        createUser req s = (.created u, s') →
        u.id = s.userCounter ∧ s'.userCounter = s.userCounter + 1) ∧
    (∀ (req : CreatePostRequest) (s : AppState),
        (createPost req s).1.id = s.postCounter ∧
        (createPost req s).2.postCounter = s.postCounter + 1) ∧
    (∀ (r1 r2 : CreateUserRequest) (s s1 s2 : AppState) (u1 u2 : User)
        (ops : List Op),
        createUser r1 s = (.created u1, s1) →
        createUser r2 (run ops s1) = (.created u2, s2) →
        u1.id < u2.id) ∧
    (∀ (r1 r2 : CreatePostRequest) (s : AppState) (ops : List Op),
        (createPost r1 s).1.id <
          (createPost r2 (run ops (createPost r1 s).2)).1.id) := by
  refine ⟨?_, ?_, ?_, ?_⟩
  · intro req s s' u h
    have c := createUser_created h
    exact ⟨c.1, c.2.1⟩
  · intro req s
    constructor <;> simp [createPost]
  · intro r1 r2 s s1 s2 u1 u2 ops h1 h2
    have c1 := createUser_created h1
    have c2 := createUser_created h2
    have hm : s1.userCounter ≤ (run ops s1).userCounter :=
      (run_counters_mono ops s1).1
    have e1 : u1.id = s.userCounter := c1.1
    have e2 : s1.userCounter = s.userCounter + 1 := c1.2.1
    have e3 : u2.id = (run ops s1).userCounter := c2.1
    omega
  · intro r1 r2 s ops
    have hm : (createPost r1 s).2.postCounter ≤
        (run ops (createPost r1 s).2).postCounter :=
      (run_counters_mono ops (createPost r1 s).2).2
    have e1 : (createPost r1 s).1.id = s.postCounter := by simp [createPost]
    have e2 : (createPost r1 s).2.postCounter = s.postCounter + 1 := by
      simp [createPost]
    have e3 : (createPost r2 (run ops (createPost r1 s).2)).1.id =
        (run ops (createPost r1 s).2).postCounter := by simp [createPost]
    omega

theorem C1_witness :
    ({ id := 1, username := "alice", email := "a@x.com", createdAt := 0,
       updatedAt := 0 : User }).id <
      ({ id := 2, username := "bob", email := "b@x.com", createdAt := 0,
         updatedAt := 0 : User }).id :=
  C1_create_identities_strictly_increasing.2.2.1
    ⟨"alice", "a@x.com"⟩ ⟨"bob", "b@x.com"⟩ initialState
    ⟨[⟨1, "alice", "a@x.com", 0, 0⟩], [], 2, 1⟩
    ⟨[⟨2, "bob", "b@x.com", 0, 0⟩], [], 3, 1⟩
    ⟨1, "alice", "a@x.com", 0, 0⟩ ⟨2, "bob", "b@x.com", 0, 0⟩
    [.deleteUser "1"] (by decide) (by decide)

/-- C2: a user-create whose username or email (OR semantics) is already
held by any existing user returns a 409 conflict and leaves the whole
state, collection and counter included, unchanged. -/
theorem C2_create_conflict_on_username_or_email
    (s : AppState) (req : CreateUserRequest)
    (h : ∃ u ∈ s.users, u.username = req.username ∨ u.email = req.email) :
    createUser req s = (.conflict, s) := by
  have hc : (s.users.any
      fun v => v.username == req.username || v.email == req.email) = true := by
    rw [List.any_eq_true]
    obtain ⟨u, hu, hor⟩ := h
    refine ⟨u, hu, ?_⟩
    cases hor with
    | inl h => simp [h]
    | inr h => simp [h]
  simp [createUser, hc]

theorem C2_witness :
    createUser ⟨"alice", "b@x.com"⟩
        ⟨[⟨1, "alice", "a@x.com", 0, 0⟩], [], 2, 1⟩ =
      (.conflict, ⟨[⟨1, "alice", "a@x.com", 0, 0⟩], [], 2, 1⟩) :=
  C2_create_conflict_on_username_or_email _ _
    ⟨⟨1, "alice", "a@x.com", 0, 0⟩, by simp, Or.inl rfl⟩

/-- C3 (code bug in the source): `createUser` builds the stored and
returned user without ever calling `time.Now()`, so its `createdAt` and
`updatedAt` stay at the zero time and in particular differ from any
nonzero current time, contradicting the claim that they are set to the
time of creation. -/
theorem C3_create_timestamps_left_at_zero
    (req : CreateUserRequest) (s s' : AppState) (u : User) (now : Nat)
    (h : createUser req s = (.created u, s')) (hnow : 0 < now) :
    u.createdAt = 0 ∧ u.updatedAt = 0 ∧
      u.createdAt ≠ now ∧ u.updatedAt ≠ now := by
  obtain ⟨-, -, -, -, h5, h6, -, -, -⟩ := createUser_created h
  exact ⟨h5, h6, by omega, by omega⟩

theorem C3_witness :
    ({ id := 1, username := "alice", email := "a@x.com", createdAt := 0,
       updatedAt := 0 : User }).createdAt = 0 ∧
    ({ id := 1, username := "alice", email := "a@x.com", createdAt := 0,
       updatedAt := 0 : User }).updatedAt = 0 ∧
    ({ id := 1, username := "alice", email := "a@x.com", createdAt := 0,
       updatedAt := 0 : User }).createdAt ≠ 5 ∧
    ({ id := 1, username := "alice", email := "a@x.com", createdAt := 0,
       updatedAt := 0 : User }).updatedAt ≠ 5 :=
  C3_create_timestamps_left_at_zero ⟨"alice", "a@x.com"⟩ initialState
    ⟨[⟨1, "alice", "a@x.com", 0, 0⟩], [], 2, 1⟩
    ⟨1, "alice", "a@x.com", 0, 0⟩ 5 (by decide) (by decide)

/-- C4: a post create always succeeds (no conflict check exists) and
assigns `authorId` to the literal 1 when the user list is empty, else
to the id of the first user in list order, whatever the rest of the
list holds; the request carries no author field at all. -/
theorem C4_post_author_assignment (req : CreatePostRequest) (s : AppState) :
    (s.users = [] → (createPost req s).1.authorId = 1) ∧
    (∀ (u : User) (rest : List User), s.users = u :: rest →
        (createPost req s).1.authorId = u.id) ∧
    (createPost req s).2.posts = s.posts ++ [(createPost req s).1] ∧
    (createPost req s).1.id = s.postCounter := by
  refine ⟨?_, ?_, ?_, ?_⟩
  · intro h; simp [createPost, h]
  · intro u rest h; simp [createPost, h]
  · simp [createPost]
  · simp [createPost]

theorem C4_witness :
    (createPost ⟨"T", "C"⟩ initialState).1.authorId = 1 ∧
    (createPost ⟨"T", "C"⟩
        ⟨[⟨7, "alice", "a@x.com", 0, 0⟩, ⟨9, "bob", "b@x.com", 0, 0⟩],
         [], 10, 1⟩).1.authorId = 7 :=
  ⟨(C4_post_author_assignment ⟨"T", "C"⟩ initialState).1 rfl,
   (C4_post_author_assignment ⟨"T", "C"⟩ _).2.1
     ⟨7, "alice", "a@x.com", 0, 0⟩ [⟨9, "bob", "b@x.com", 0, 0⟩] rfl⟩

/-- C5: a user update whose id matches no stored user returns 404 and
returns the state exactly as it was: no entity field, the collection
and the counter are all untouched. -/
theorem C5_update_absent_id_not_found (s : AppState) (id : Nat)
    (req : CreateUserRequest) (now : Nat)
    (h : ∀ u ∈ s.users, u.id ≠ id) :
    updateUserCore id req now s = (.notFound, s) := by
  have hl := updateUserLoop_noMatch id req now s.users s.users h
  simp [updateUserCore, hl]

theorem C5_witness :
    updateUserCore 99 ⟨"x", "y@x.com"⟩ 5
        ⟨[⟨1, "alice", "a@x.com", 0, 0⟩], [], 2, 1⟩ =
      (.notFound, ⟨[⟨1, "alice", "a@x.com", 0, 0⟩], [], 2, 1⟩) :=
  C5_update_absent_id_not_found _ 99 ⟨"x", "y@x.com"⟩ 5 (by decide)

lemma any_userClash_iff (req : CreateUserRequest) (id : Nat) (l : List User) :
    (l.any (userClash req id) = true) ↔
      ∃ o ∈ l, o.id ≠ id ∧
        (o.username = req.username ∨ o.email = req.email) := by
  rw [List.any_eq_true]
  constructor
  · rintro ⟨o, ho, hc⟩
    refine ⟨o, ho, ?_⟩
    simpa [userClash] using hc
  · rintro ⟨o, ho, hc⟩
    refine ⟨o, ho, ?_⟩
    simpa [userClash] using hc

lemma users_first_match (s : AppState) (id : Nat)
    (hex : ∃ u ∈ s.users, u.id = id) :
    ∃ (pre suf : List User) (u₀ : User),
      s.users = pre ++ u₀ :: suf ∧ (∀ v ∈ pre, v.id ≠ id) ∧ u₀.id = id := by
  obtain ⟨u, hu, hid⟩ := hex
  cases hf : s.users.find? (fun v => v.id == id) with
  | none =>
    rw [List.find?_eq_none] at hf
    exact absurd (by simp [hid]) (hf u hu)
  | some u₀ =>
    obtain ⟨pre, suf, hsplit, hpre, hp⟩ := find?_decomp hf
    refine ⟨pre, suf, u₀, hsplit, ?_, by simpa using hp⟩
    intro v hv
    have := hpre v hv
    simpa using this

/-- C6: when the target id is present, the conflict check of user
update ranges only over users with a different id: the result is a 409
conflict exactly when some other user holds the requested username or
email, and in particular updating a user to its own current username
and email succeeds whenever no other user shares them. -/
theorem C6_update_conflict_excludes_self :
    (∀ (s : AppState) (id now : Nat) (req : CreateUserRequest),
        (∃ u ∈ s.users, u.id = id) →
        (((updateUserCore id req now s).1 = .conflict ↔
            ∃ o ∈ s.users, o.id ≠ id ∧
              (o.username = req.username ∨ o.email = req.email)) ∧
          ((updateUserCore id req now s).1 = .conflict →
            (updateUserCore id req now s).2 = s))) ∧
    (∀ (s : AppState) (id now : Nat) (u : User),
        u ∈ s.users → u.id = id →
        (∀ o ∈ s.users, o.id ≠ id →
            o.username ≠ u.username ∧ o.email ≠ u.email) →
        ∃ u', (updateUserCore id ⟨u.username, u.email⟩ now s).1 = .ok u') := by
  constructor
  · intro s id now req hex
    obtain ⟨pre, suf, u₀, hsplit, hpre, hid₀⟩ := users_first_match s id hex
    subst hid₀
    have hm := updateUserLoop_match u₀.id req now s.users u₀ rfl pre hpre suf
    rw [← hsplit] at hm
    have hcore1 : (updateUserCore u₀.id req now s).1 =
        (updateUserLoop u₀.id req now s.users s.users).1 := rfl
    have hcore2 : (updateUserCore u₀.id req now s).2 =
        { s with users := (updateUserLoop u₀.id req now s.users s.users).2 } :=
      rfl
    cases hany : s.users.any (userClash req u₀.id) with
    | true =>
      rw [if_pos hany] at hm
      have hex' := (any_userClash_iff req u₀.id s.users).mp hany
      constructor
      · rw [hcore1, hm]
        simp [hex']
      · intro _
        rw [hcore2, hm]
    | false =>
      rw [if_neg (by simp [hany])] at hm
      have hnex : ¬∃ o ∈ s.users, o.id ≠ u₀.id ∧
          (o.username = req.username ∨ o.email = req.email) := by
        rw [← any_userClash_iff]
        simp [hany]
      constructor
      · rw [hcore1, hm]
        simp [hnex]
      · intro hcon
        rw [hcore1, hm] at hcon
        simp at hcon
  · intro s id now u hu hid hno
    obtain ⟨pre, suf, u₀, hsplit, hpre, hid₀⟩ := users_first_match s id ⟨u, hu, hid⟩
    subst hid₀
    have hany : s.users.any (userClash ⟨u.username, u.email⟩ u₀.id) = false := by
      rw [Bool.eq_false_iff]
      intro hc
      obtain ⟨o, ho, hne, hor⟩ := (any_userClash_iff _ _ _).mp hc
      have hoth := hno o ho hne
      cases hor with
      | inl h => exact hoth.1 h
      | inr h => exact hoth.2 h
    have hm := updateUserLoop_match u₀.id ⟨u.username, u.email⟩ now s.users u₀
      rfl pre hpre suf
    rw [← hsplit] at hm
    rw [if_neg (by simp [hany])] at hm
    refine ⟨applyUserReq ⟨u.username, u.email⟩ now u₀, ?_⟩
    have hcore1 : (updateUserCore u₀.id ⟨u.username, u.email⟩ now s).1 =
        (updateUserLoop u₀.id ⟨u.username, u.email⟩ now s.users s.users).1 := rfl
    rw [hcore1, hm]

theorem C6_witness :
    ((updateUserCore 1 ⟨"alice", "a@x.com"⟩ 5
        ⟨[⟨1, "alice", "a@x.com", 0, 0⟩, ⟨2, "bob", "b@x.com", 0, 0⟩],
         [], 3, 1⟩).1 = .conflict ↔
      ∃ o ∈ ([⟨1, "alice", "a@x.com", 0, 0⟩,
              ⟨2, "bob", "b@x.com", 0, 0⟩] : List User), o.id ≠ 1 ∧
        (o.username = "alice" ∨ o.email = "a@x.com")) ∧
    ∃ u', (updateUserCore 1 ⟨"alice", "a@x.com"⟩ 5
        ⟨[⟨1, "alice", "a@x.com", 0, 0⟩, ⟨2, "bob", "b@x.com", 0, 0⟩],
         [], 3, 1⟩).1 = .ok u' :=
  ⟨(C6_update_conflict_excludes_self.1
      ⟨[⟨1, "alice", "a@x.com", 0, 0⟩, ⟨2, "bob", "b@x.com", 0, 0⟩], [], 3, 1⟩
      1 5 ⟨"alice", "a@x.com"⟩
      ⟨⟨1, "alice", "a@x.com", 0, 0⟩, by simp, rfl⟩).1,
   C6_update_conflict_excludes_self.2
      ⟨[⟨1, "alice", "a@x.com", 0, 0⟩, ⟨2, "bob", "b@x.com", 0, 0⟩], [], 3, 1⟩
      1 5 ⟨1, "alice", "a@x.com", 0, 0⟩ (by simp) rfl (by decide)⟩

lemma find?_first {α : Type} (p : α → Bool) (a : α) (ha : p a = true) :
    ∀ (pre : List α), (∀ v ∈ pre, p v = false) → ∀ (suf : List α),
      (pre ++ a :: suf).find? p = some a := by
  intro pre
  induction pre with
  | nil =>
    intro _ suf
    simpa using List.find?_cons_of_pos suf ha
  | cons x pre ih =>
    intro hpre suf
    have hx := hpre x (List.mem_cons_self x pre)
    have ih' := ih (fun w hw => hpre w (List.mem_cons_of_mem x hw)) suf
    calc ((x :: pre) ++ a :: suf).find? p
        = (pre ++ a :: suf).find? p :=
          List.find?_cons_of_neg _ (by simp [hx])
      _ = some a := ih'

/-- C7: after a successful user update at clock value `now` later than
the stored `updatedAt`, `Get` on the same id returns exactly the
updated entity: new username and email, `createdAt` untouched, and
`updatedAt` strictly later than its pre-update value. -/
theorem C7_update_then_get_roundtrip
    (s s' : AppState) (id now : Nat) (req : CreateUserRequest)
    (u₀ u' : User)
    (hget : getUserCore id s = .ok u₀)
    (hupd : updateUserCore id req now s = (.ok u', s'))
    (hclock : u₀.updatedAt < now) :
    getUserCore id s' = .ok u' ∧
      u'.username = req.username ∧ u'.email = req.email ∧
      u'.createdAt = u₀.createdAt ∧ u₀.updatedAt < u'.updatedAt := by
  have hf : s.users.find? (fun v => v.id == id) = some u₀ := by
    unfold getUserCore at hget
    cases hf : s.users.find? (fun v => v.id == id) with
    | none => rw [hf] at hget; exact absurd hget (by simp)
    | some v =>
      rw [hf] at hget
      simp only [GetResult.ok.injEq] at hget
      rw [hget]
  obtain ⟨pre, suf, hsplit, hpre, hp⟩ := find?_decomp hf
  have hid₀ : u₀.id = id := by simpa using hp
  have hpre' : ∀ v ∈ pre, v.id ≠ id := fun v hv => by simpa using hpre v hv
  have hm := updateUserLoop_match id req now s.users u₀ hid₀ pre hpre' suf
  rw [← hsplit] at hm
  cases hany : s.users.any (userClash req u₀.id) with
  | true =>
    rw [if_pos hany] at hm
    have : (updateUserCore id req now s).1 = .conflict := by
      have hcore : (updateUserCore id req now s).1 =
          (updateUserLoop id req now s.users s.users).1 := rfl
      rw [hcore, hm]
    rw [hupd] at this
    exact absurd this (by simp)
  | false =>
    rw [if_neg (by simp [hany])] at hm
    have hpair : updateUserCore id req now s =
        (.ok (applyUserReq req now u₀),
         { s with users := pre ++ applyUserReq req now u₀ :: suf }) := by
      show ((updateUserLoop id req now s.users s.users).1,
        { s with users := (updateUserLoop id req now s.users s.users).2 }) = _
      rw [hm]
    rw [hupd] at hpair
    injection hpair with h1 h2
    have hu' : u' = applyUserReq req now u₀ := by
      have := h1
      simp only [UpdateUserResult.ok.injEq] at this
      exact this
    have hs' : s' = { s with users := pre ++ applyUserReq req now u₀ :: suf } :=
      h2
    refine ⟨?_, ?_, ?_, ?_, ?_⟩
    · have hfind : (pre ++ applyUserReq req now u₀ :: suf).find?
          (fun v => v.id == id) = some (applyUserReq req now u₀) := by
        apply find?_first
        · simp [applyUserReq, hid₀]
        · intro v hv
          simpa using hpre' v hv
      unfold getUserCore
      rw [hs']
      simp only []
      rw [hfind, hu']
    · rw [hu']; simp [applyUserReq]
    · rw [hu']; simp [applyUserReq]
    · rw [hu']; simp [applyUserReq]
    · rw [hu']; simpa [applyUserReq] using hclock

theorem C7_witness :
    getUserCore 1 ⟨[⟨1, "al2", "a2@x.com", 3, 5⟩], [], 2, 1⟩ =
        .ok ⟨1, "al2", "a2@x.com", 3, 5⟩ ∧
      (⟨1, "al2", "a2@x.com", 3, 5⟩ : User).username = "al2" ∧
      (⟨1, "al2", "a2@x.com", 3, 5⟩ : User).email = "a2@x.com" ∧
      (⟨1, "al2", "a2@x.com", 3, 5⟩ : User).createdAt =
        (⟨1, "alice", "a@x.com", 3, 4⟩ : User).createdAt ∧
      (⟨1, "alice", "a@x.com", 3, 4⟩ : User).updatedAt <
        (⟨1, "al2", "a2@x.com", 3, 5⟩ : User).updatedAt :=
  C7_update_then_get_roundtrip
    ⟨[⟨1, "alice", "a@x.com", 3, 4⟩], [], 2, 1⟩
    ⟨[⟨1, "al2", "a2@x.com", 3, 5⟩], [], 2, 1⟩
    1 5 ⟨"al2", "a2@x.com"⟩
    ⟨1, "alice", "a@x.com", 3, 4⟩ ⟨1, "al2", "a2@x.com", 3, 5⟩
    (by decide) (by decide) (by decide)

/-- C8: a successful post update overwrites only `title`, `content` and
`updatedAt` of the first post holding the target id: its `id`,
`authorId` and `createdAt` keep their old values, the posts before and
after it in the list are returned verbatim, and the user collection and
both counters are untouched. -/
theorem C8_update_post_frame
    (s : AppState) (id now : Nat) (req : CreatePostRequest)
    (pre suf : List Post) (p₀ : Post)
    (hsplit : s.posts = pre ++ p₀ :: suf)
    (hpre : ∀ q ∈ pre, q.id ≠ id) (hid : p₀.id = id) :
    updatePostCore id req now s =
      (.ok (applyPostReq req now p₀),
       { s with posts := pre ++ applyPostReq req now p₀ :: suf }) ∧
    (applyPostReq req now p₀).id = p₀.id ∧
    (applyPostReq req now p₀).authorId = p₀.authorId ∧
    (applyPostReq req now p₀).createdAt = p₀.createdAt ∧
    (applyPostReq req now p₀).title = req.title ∧
    (applyPostReq req now p₀).content = req.content ∧
    (applyPostReq req now p₀).updatedAt = now := by
  have hm := updatePostLoop_match id req now p₀ hid pre hpre suf
  refine ⟨?_, by simp [applyPostReq], by simp [applyPostReq],
    by simp [applyPostReq], by simp [applyPostReq], by simp [applyPostReq],
    by simp [applyPostReq]⟩
  show ((updatePostLoop id req now s.posts).1,
      { s with posts := (updatePostLoop id req now s.posts).2 }) = _
  rw [hsplit, hm]

theorem C8_witness :
    updatePostCore 2 ⟨"T2", "C2"⟩ 9
        ⟨[⟨3, "u", "u@x.com", 0, 0⟩],
         [⟨1, "A", "B", 3, 0, 0⟩, ⟨2, "T", "C", 3, 1, 1⟩,
          ⟨4, "D", "E", 7, 2, 2⟩], 4, 5⟩ =
      (.ok ⟨2, "T2", "C2", 3, 1, 9⟩,
       ⟨[⟨3, "u", "u@x.com", 0, 0⟩],
        [⟨1, "A", "B", 3, 0, 0⟩, ⟨2, "T2", "C2", 3, 1, 9⟩,
         ⟨4, "D", "E", 7, 2, 2⟩], 4, 5⟩) ∧
    (⟨2, "T2", "C2", 3, 1, 9⟩ : Post).authorId = 3 :=
  have h := C8_update_post_frame
    ⟨[⟨3, "u", "u@x.com", 0, 0⟩],
     [⟨1, "A", "B", 3, 0, 0⟩, ⟨2, "T", "C", 3, 1, 1⟩,
      ⟨4, "D", "E", 7, 2, 2⟩], 4, 5⟩
    2 9 ⟨"T2", "C2"⟩
    [⟨1, "A", "B", 3, 0, 0⟩] [⟨4, "D", "E", 7, 2, 2⟩] ⟨2, "T", "C", 3, 1, 1⟩
    rfl (by decide) rfl
  ⟨h.1, h.2.2.1⟩

lemma getUserCore_notFound_iff (id : Nat) (s : AppState) :
    (getUserCore id s = .notFound ↔ ∀ u ∈ s.users, u.id ≠ id) ∧
      getUserCore id s ≠ .invalidId := by
  unfold getUserCore
  cases hf : s.users.find? (fun u => u.id == id) with
  | some u =>
    have hu : u ∈ s.users := List.mem_of_find?_eq_some hf
    have hp := List.find?_some hf
    refine ⟨⟨fun h => by simp at h, fun h => ?_⟩, by simp⟩
    exact absurd (by simpa using hp) (h u hu)
  | none =>
    rw [List.find?_eq_none] at hf
    refine ⟨⟨fun _ u hu => by simpa using hf u hu, fun _ => rfl⟩, by simp⟩

lemma getPostCore_notFound_iff (id : Nat) (s : AppState) :
    (getPostCore id s = .notFound ↔ ∀ p ∈ s.posts, p.id ≠ id) ∧
      getPostCore id s ≠ .invalidId := by
  unfold getPostCore
  cases hf : s.posts.find? (fun p => p.id == id) with
  | some p =>
    have hp' : p ∈ s.posts := List.mem_of_find?_eq_some hf
    have hp := List.find?_some hf
    refine ⟨⟨fun h => by simp at h, fun h => ?_⟩, by simp⟩
    exact absurd (by simpa using hp) (h p hp')
  | none =>
    rw [List.find?_eq_none] at hf
    refine ⟨⟨fun _ p hp => by simpa using hf p hp, fun _ => rfl⟩, by simp⟩

lemma updateUserLoop_ne_invalid (id : Nat) (req : CreateUserRequest)
    (now : Nat) (all : List User) :
    ∀ l : List User, (updateUserLoop id req now all l).1 ≠ .invalidId := by
  intro l
  induction l with
  | nil => simp [updateUserLoop]
  | cons u rest ih =>
    cases hu : u.id == id with
    | true =>
      cases hc : all.any (userClash req u.id) with
      | true => simp [updateUserLoop, hu, hc]
      | false => simp [updateUserLoop, hu, hc]
    | false => simp [updateUserLoop, hu, ih]

lemma updatePostLoop_ne_invalid (id : Nat) (req : CreatePostRequest)
    (now : Nat) :
    ∀ l : List Post, (updatePostLoop id req now l).1 ≠ .invalidId := by
  intro l
  induction l with
  | nil => simp [updatePostLoop]
  | cons p rest ih =>
    cases hp : p.id == id with
    | true => simp [updatePostLoop, hp]
    | false => simp [updatePostLoop, hp, ih]

lemma deleteUserLoop_ne_invalid (id : Nat) :
    ∀ l : List User, (deleteUserLoop id l).1 ≠ .invalidId := by
  intro l
  induction l with
  | nil => simp [deleteUserLoop]
  | cons u rest ih =>
    cases hu : u.id == id with
    | true => simp [deleteUserLoop, hu]
    | false => simp [deleteUserLoop, hu, ih]

lemma deletePostLoop_ne_invalid (id : Nat) :
    ∀ l : List Post, (deletePostLoop id l).1 ≠ .invalidId := by
  intro l
  induction l with
  | nil => simp [deletePostLoop]
  | cons p rest ih =>
    cases hp : p.id == id with
    | true => simp [deletePostLoop, hp]
    | false => simp [deletePostLoop, hp, ih]

lemma parseUint32_some_iff (str : String) (n : Nat) :
    parseUint32 str = some n ↔
      str.data ≠ [] ∧ str.data.all Char.isDigit = true ∧
        digitsVal str = n ∧ n < 2 ^ 32 := by
  unfold parseUint32
  by_cases h1 : str.data.isEmpty = true
  · rw [if_pos h1]
    simp [List.isEmpty_iff.mp h1]
  · rw [if_neg h1]
    have h1' : str.data ≠ [] := by simpa [List.isEmpty_iff] using h1
    by_cases h2 : str.data.all Char.isDigit = true
    · rw [if_pos h2]
      by_cases h3 : digitsVal str < 2 ^ 32
      · rw [if_pos h3]
        constructor
        · intro h
          exact ⟨h1', h2, Option.some_inj.mp h, Option.some_inj.mp h ▸ h3⟩
        · rintro ⟨-, -, rfl, -⟩; rfl
      · rw [if_neg h3]
        constructor
        · intro h; exact absurd h (by simp)
        · rintro ⟨-, -, rfl, h⟩; exact absurd h h3
    · rw [if_neg h2]
      constructor
      · intro h; exact absurd h (by simp)
      · rintro ⟨-, h, -, -⟩; exact absurd h h2

/-- C9: every by-id handler parses the `:id` parameter first and
answers 400 exactly when it is not a decimal unsigned integer fitting
in 32 bits (empty, non-digit, or out of range), while 404 arises
exactly when the parameter parsed to some value but no entity carries
that id; the two outcomes are mutually exclusive, with the 400 check
decided before any lookup. -/
theorem C9_id_param_validation :
    (∀ (idParam : String) (s : AppState),
        (getUser idParam s = .invalidId ↔ parseUint32 idParam = none) ∧
        (getUser idParam s = .notFound ↔
          ∃ n, parseUint32 idParam = some n ∧ ∀ u ∈ s.users, u.id ≠ n)) ∧
    (∀ (idParam : String) (req : CreateUserRequest) (now : Nat)
        (s : AppState),
        ((updateUser idParam req now s).1 = .invalidId ↔
          parseUint32 idParam = none) ∧
        ((updateUser idParam req now s).1 = .notFound ↔
          ∃ n, parseUint32 idParam = some n ∧ ∀ u ∈ s.users, u.id ≠ n)) ∧
    (∀ (idParam : String) (s : AppState),
        ((deleteUser idParam s).1 = .invalidId ↔
          parseUint32 idParam = none) ∧
        ((deleteUser idParam s).1 = .notFound ↔
          ∃ n, parseUint32 idParam = some n ∧ ∀ u ∈ s.users, u.id ≠ n)) ∧
    (∀ (idParam : String) (s : AppState),
        (getPost idParam s = .invalidId ↔ parseUint32 idParam = none) ∧
        (getPost idParam s = .notFound ↔
          ∃ n, parseUint32 idParam = some n ∧ ∀ p ∈ s.posts, p.id ≠ n)) ∧
    (∀ (idParam : String) (req : CreatePostRequest) (now : Nat)
        (s : AppState),
        ((updatePost idParam req now s).1 = .invalidId ↔
          parseUint32 idParam = none) ∧
        ((updatePost idParam req now s).1 = .notFound ↔
          ∃ n, parseUint32 idParam = some n ∧ ∀ p ∈ s.posts, p.id ≠ n)) ∧
    (∀ (idParam : String) (s : AppState),
        ((deletePost idParam s).1 = .invalidId ↔
          parseUint32 idParam = none) ∧
        ((deletePost idParam s).1 = .notFound ↔
          ∃ n, parseUint32 idParam = some n ∧ ∀ p ∈ s.posts, p.id ≠ n)) ∧
    (∀ (str : String) (n : Nat),
        parseUint32 str = some n ↔
          str.data ≠ [] ∧ str.data.all Char.isDigit = true ∧
            digitsVal str = n ∧ n < 2 ^ 32) := by
  refine ⟨?_, ?_, ?_, ?_, ?_, ?_, parseUint32_some_iff⟩
  · intro idParam s
    cases hp : parseUint32 idParam with
    | none =>
      constructor
      · simp [getUser, hp]
      · simp [getUser, hp]
    | some id =>
      have hg := getUserCore_notFound_iff id s
      have hc1 : getUser idParam s = getUserCore id s := by
        simp [getUser, hp]
      constructor
      · rw [hc1]
        constructor
        · intro h; exact absurd h hg.2
        · intro h; simp at h
      · rw [hc1, hg.1]
        constructor
        · intro h; exact ⟨id, rfl, h⟩
        · rintro ⟨n, hn, h⟩
          obtain rfl := Option.some_inj.mp hn
          exact h
  · intro idParam req now s
    cases hp : parseUint32 idParam with
    | none =>
      constructor
      · simp [updateUser, hp]
      · simp [updateUser, hp]
    | some id =>
      have h1 := updateUserLoop_ne_invalid id req now s.users s.users
      have h2 := updateUserLoop_notFound_iff id req now s.users s.users
      have hc1 : (updateUser idParam req now s).1 =
          (updateUserLoop id req now s.users s.users).1 := by
        simp [updateUser, hp, updateUserCore]
      constructor
      · rw [hc1]
        constructor
        · intro h; exact absurd h h1
        · intro h; simp at h
      · rw [hc1, h2]
        constructor
        · intro h; exact ⟨id, rfl, h⟩
        · rintro ⟨n, hn, h⟩
          obtain rfl := Option.some_inj.mp hn
          exact h
  · intro idParam s
    cases hp : parseUint32 idParam with
    | none =>
      constructor
      · simp [deleteUser, hp]
      · simp [deleteUser, hp]
    | some id =>
      have h1 := deleteUserLoop_ne_invalid id s.users
      have h2 := deleteUserLoop_notFound_iff id s.users
      have hc1 : (deleteUser idParam s).1 = (deleteUserLoop id s.users).1 := by
        simp [deleteUser, hp, deleteUserCore]
      constructor
      · rw [hc1]
        constructor
        · intro h; exact absurd h h1
        · intro h; simp at h
      · rw [hc1, h2]
        constructor
        · intro h; exact ⟨id, rfl, h⟩
        · rintro ⟨n, hn, h⟩
          obtain rfl := Option.some_inj.mp hn
          exact h
  · intro idParam s
    cases hp : parseUint32 idParam with
    | none =>
      constructor
      · simp [getPost, hp]
      · simp [getPost, hp]
    | some id =>
      have hg := getPostCore_notFound_iff id s
      have hc1 : getPost idParam s = getPostCore id s := by
        simp [getPost, hp]
      constructor
      · rw [hc1]
        constructor
        · intro h; exact absurd h hg.2
        · intro h; simp at h
      · rw [hc1, hg.1]
        constructor
        · intro h; exact ⟨id, rfl, h⟩
        · rintro ⟨n, hn, h⟩
          obtain rfl := Option.some_inj.mp hn
          exact h
  · intro idParam req now s
    cases hp : parseUint32 idParam with
    | none =>
      constructor
      · simp [updatePost, hp]
      · simp [updatePost, hp]
    | some id =>
      have h1 := updatePostLoop_ne_invalid id req now s.posts
      have h2 := updatePostLoop_notFound_iff id req now s.posts
      have hc1 : (updatePost idParam req now s).1 =
          (updatePostLoop id req now s.posts).1 := by
        simp [updatePost, hp, updatePostCore]
      constructor
      · rw [hc1]
        constructor
        · intro h; exact absurd h h1
        · intro h; simp at h
      · rw [hc1, h2]
        constructor
        · intro h; exact ⟨id, rfl, h⟩
        · rintro ⟨n, hn, h⟩
          obtain rfl := Option.some_inj.mp hn
          exact h
  · intro idParam s
    cases hp : parseUint32 idParam with
    | none =>
      constructor
      · simp [deletePost, hp]
      · simp [deletePost, hp]
    | some id =>
      have h1 := deletePostLoop_ne_invalid id s.posts
      have h2 := deletePostLoop_notFound_iff id s.posts
      have hc1 : (deletePost idParam s).1 = (deletePostLoop id s.posts).1 := by
        simp [deletePost, hp, deletePostCore]
      constructor
      · rw [hc1]
        constructor
        · intro h; exact absurd h h1
        · intro h; simp at h
      · rw [hc1, h2]
        constructor
        · intro h; exact ⟨id, rfl, h⟩
        · rintro ⟨n, hn, h⟩
          obtain rfl := Option.some_inj.mp hn
          exact h

theorem C9_witness :
    getUser "abc" initialState = .invalidId ∧
      getUser "4294967296" initialState = .invalidId ∧
      getUser "4294967295" initialState = .notFound ∧
      getUser "" initialState = .invalidId :=
  ⟨(C9_id_param_validation.1 "abc" initialState).1.mpr (by decide),
   (C9_id_param_validation.1 "4294967296" initialState).1.mpr (by decide),
   (C9_id_param_validation.1 "4294967295" initialState).2.mpr
     ⟨4294967295, by decide, by decide⟩,
   (C9_id_param_validation.1 "" initialState).1.mpr (by decide)⟩

/-- C10: user-repository operations never touch the post collection or
post counter and post-repository operations never touch the user
collection or user counter; reads (`Get`, `List`) change no state at
all, and deleting a user leaves every post (including posts whose
`authorId` names the deleted user) in place. -/
theorem C10_cross_repository_frame :
    (∀ (req : CreateUserRequest) (s : AppState),
        (createUser req s).2.posts = s.posts ∧
        (createUser req s).2.postCounter = s.postCounter) ∧
    (∀ (idParam : String) (req : CreateUserRequest) (now : Nat)
        (s : AppState),
        (updateUser idParam req now s).2.posts = s.posts ∧
        (updateUser idParam req now s).2.postCounter = s.postCounter) ∧
    (∀ (idParam : String) (s : AppState),
        (deleteUser idParam s).2.posts = s.posts ∧
        (deleteUser idParam s).2.postCounter = s.postCounter) ∧
    (∀ (req : CreatePostRequest) (s : AppState),
        (createPost req s).2.users = s.users ∧
        (createPost req s).2.userCounter = s.userCounter) ∧
    (∀ (idParam : String) (req : CreatePostRequest) (now : Nat)
        (s : AppState),
        (updatePost idParam req now s).2.users = s.users ∧
        (updatePost idParam req now s).2.userCounter = s.userCounter) ∧
    (∀ (idParam : String) (s : AppState),
        (deletePost idParam s).2.users = s.users ∧
        (deletePost idParam s).2.userCounter = s.userCounter) ∧
    (∀ (s : AppState) (idParam : String),
        step (.getUser idParam) s = s ∧ step .listUsers s = s ∧
        step (.getPost idParam) s = s ∧ step .listPosts s = s) := by
  refine ⟨?_, ?_, ?_, ?_, ?_, ?_, ?_⟩
  · intro req s
    cases hc : s.users.any
        (fun v => v.username == req.username || v.email == req.email) with
    | true => simp [createUser, hc]
    | false => simp [createUser, hc]
  · intro idParam req now s
    cases hp : parseUint32 idParam with
    | none => simp [updateUser, hp]
    | some id => simp [updateUser, hp, updateUserCore]
  · intro idParam s
    cases hp : parseUint32 idParam with
    | none => simp [deleteUser, hp]
    | some id => simp [deleteUser, hp, deleteUserCore]
  · intro req s
    simp [createPost]
  · intro idParam req now s
    cases hp : parseUint32 idParam with
    | none => simp [updatePost, hp]
    | some id => simp [updatePost, hp, updatePostCore]
  · intro idParam s
    cases hp : parseUint32 idParam with
    | none => simp [deletePost, hp]
    | some id => simp [deletePost, hp, deletePostCore]
  · intro s idParam
    exact ⟨rfl, rfl, rfl, rfl⟩
